import Mathlib

/-!
Verification of the Tadaima lesson-persistence layer and quiz session engine.

The storage backend (`LessonsDatabase.cpp`) is embedded as pure functions over
an explicit relational store; each SQLite statement outcome (prepare / step)
is an explicit boolean input, and every `m_logger.log` call becomes a structured
`LogEvent` appended to a returned trace. The `LessonManager` and the quiz
engine are modelled from the specification, since only their tests and callers
are part of the source tree.
-/

namespace Tadaima

/-- Log levels used by the logging collaborator (`tools::LogLevel`). -/
inductive LogLevel where
  | INFO
  | PROBLEM
deriving DecidableEq

/-- One structured log event per `m_logger.log` call site in `LessonsDatabase.cpp`.
Each constructor corresponds to one distinct message template in the source. -/
inductive LogEvent where
  | sqlErrorAddingLesson (err : String)
  | addedLesson (id : Int) (mainName subName : String)
  | sqlErrorAddingWord (err : String)
  | addedWord (id : Int) (lessonId : Int)
  | sqlErrorAddingTag (err : String)
  | addedTag (tag : String) (wordId : Int)
  | sqlErrorUpdatingLesson (err : String)
  | updatedLesson (id : Int) (newMainName newSubName : String)
  | sqlErrorUpdatingWord (err : String)
  | updatedWord (id : Int)
  | sqlErrorDeletingLesson (err : String)
  | deletedLesson (id : Int)
  | sqlErrorDeletingWord (err : String)
  | deletedWord (id : Int)
deriving DecidableEq

/-- The level each log call site passes to the logger in `LessonsDatabase.cpp`. -/
def LogEvent.level : LogEvent → LogLevel
  | .sqlErrorAddingLesson _ => .PROBLEM
  | .addedLesson _ _ _ => .INFO
  | .sqlErrorAddingWord _ => .PROBLEM
  | .addedWord _ _ => .INFO
  | .sqlErrorAddingTag _ => .PROBLEM
  | .addedTag _ _ => .INFO
  | .sqlErrorUpdatingLesson _ => .PROBLEM
  | .updatedLesson _ _ _ => .INFO
  | .sqlErrorUpdatingWord _ => .PROBLEM
  | .updatedWord _ => .INFO
  | .sqlErrorDeletingLesson _ => .PROBLEM
  | .deletedLesson _ => .INFO
  | .sqlErrorDeletingWord _ => .PROBLEM
  | .deletedWord _ => .INFO

/-- Domain record `tadaima::Word` (id, kana, translation, romaji,
exampleSentence, tags), as used by the manager and tests. -/
structure Word where
  id : Int := 0
  kana : String := ""
  translation : String := ""
  romaji : String := ""
  exampleSentence : String := ""
  tags : List String := []
deriving DecidableEq

/-- Domain record `tadaima::Lesson` (id, mainName, subName, words). -/
structure Lesson where
  id : Int := 0
  mainName : String := ""
  subName : String := ""
  words : List Word := []
deriving DecidableEq

/-- A row of the `lessons` table:
`lessons(id PK AUTOINCREMENT, main_name TEXT, sub_name TEXT)`. -/
structure LessonRow where
  id : Int
  main_name : String
  sub_name : String
deriving DecidableEq

/-- A row of the `words` table:
`words(id PK AUTOINCREMENT, lesson_id FK, kana, translation, romaji, example_sentence)`. -/
structure WordRow where
  id : Int
  lesson_id : Int
  kana : String
  translation : String
  romaji : String
  example_sentence : String
deriving DecidableEq

/-- A row of the `tags` table: `tags(id PK AUTOINCREMENT, word_id FK, tag TEXT)`. -/
structure TagRow where
  id : Int
  word_id : Int
  tag : String
deriving DecidableEq

/-- The relational store backing `LessonsDatabase`: the three tables in storage
iteration order, plus one AUTOINCREMENT counter per table (the id SQLite will
assign to the next inserted row and report via `sqlite3_last_insert_rowid`). -/
structure DB where
  lessons : List LessonRow
  words : List WordRow
  tags : List TagRow
  nextLessonId : Int
  nextWordId : Int
  nextTagId : Int
deriving DecidableEq

/-- The AUTOINCREMENT discipline: counters are positive and strictly above
every id already present in the corresponding table. -/
def DB.wellformed (db : DB) : Prop :=
  0 < db.nextLessonId ∧ 0 < db.nextWordId ∧ 0 < db.nextTagId ∧
  (∀ r ∈ db.lessons, r.id < db.nextLessonId) ∧
  (∀ r ∈ db.words, r.id < db.nextWordId) ∧
  (∀ r ∈ db.tags, r.id < db.nextTagId)

instance (db : DB) : Decidable db.wellformed := by
  unfold DB.wellformed
  infer_instance

namespace LessonsDatabase

/-- Embeds `LessonsDatabase::addLesson`: prepares
`INSERT INTO lessons (main_name, sub_name) VALUES (?, ?)`; on prepare failure
returns -1 with no log; on step failure logs a PROBLEM and returns -1; on
success inserts the row, logs an INFO, and returns the fresh rowid. -/
def addLesson (db : DB) (mainName subName : String)
    (prepareOk stepOk : Bool) (err : String) : Int × DB × List LogEvent :=
  if prepareOk then
    if stepOk then
      let lessonId := db.nextLessonId
      (lessonId,
       { db with lessons := db.lessons ++ [⟨lessonId, mainName, subName⟩],
                 nextLessonId := lessonId + 1 },
       [LogEvent.addedLesson lessonId mainName subName])
    else
      (-1, db, [LogEvent.sqlErrorAddingLesson err])
  else
    (-1, db, [])

/-- Embeds `LessonsDatabase::addWord`: inserts into `words`; same outcome structure as
`addLesson` (prepare failure silent -1, step failure logged -1, success logs
and returns the fresh rowid). Tags of the argument word are not written. -/
def addWord (db : DB) (lessonId : Int) (word : Word)
    (prepareOk stepOk : Bool) (err : String) : Int × DB × List LogEvent :=
  if prepareOk then
    if stepOk then
      let wordId := db.nextWordId
      (wordId,
       { db with words := db.words ++
           [⟨wordId, lessonId, word.kana, word.translation, word.romaji,
             word.exampleSentence⟩],
                 nextWordId := wordId + 1 },
       [LogEvent.addedWord wordId lessonId])
    else
      (-1, db, [LogEvent.sqlErrorAddingWord err])
  else
    (-1, db, [])

/-- Embeds `LessonsDatabase::addTag`: void return. When prepare succeeds, a step
failure only logs a PROBLEM; the `Added tag` INFO log is emitted after
`sqlite3_finalize` on every prepare-success path, regardless of the step
outcome. -/
def addTag (db : DB) (wordId : Int) (tag : String)
    (prepareOk stepOk : Bool) (err : String) : DB × List LogEvent :=
  if prepareOk then
    if stepOk then
      ({ db with tags := db.tags ++ [⟨db.nextTagId, wordId, tag⟩],
                 nextTagId := db.nextTagId + 1 },
       [LogEvent.addedTag tag wordId])
    else
      (db, [LogEvent.sqlErrorAddingTag err, LogEvent.addedTag tag wordId])
  else
    (db, [])

/-- Embeds `LessonsDatabase::updateLesson`: `UPDATE lessons SET main_name = ?,
sub_name = ? WHERE id = ?`; the INFO log is emitted on every prepare-success
path. -/
def updateLesson (db : DB) (lessonId : Int) (newMainName newSubName : String)
    (prepareOk stepOk : Bool) (err : String) : DB × List LogEvent :=
  if prepareOk then
    if stepOk then
      ({ db with lessons := db.lessons.map fun r =>
          if r.id = lessonId then
            { r with main_name := newMainName, sub_name := newSubName }
          else r },
       [LogEvent.updatedLesson lessonId newMainName newSubName])
    else
      (db, [LogEvent.sqlErrorUpdatingLesson err,
            LogEvent.updatedLesson lessonId newMainName newSubName])
  else
    (db, [])

/-- Embeds `LessonsDatabase::updateWord`: `UPDATE words SET kana = ?, translation = ?,
romaji = ?, example_sentence = ? WHERE id = ?`; touches no other table. -/
def updateWord (db : DB) (wordId : Int) (updatedWord : Word)
    (prepareOk stepOk : Bool) (err : String) : DB × List LogEvent :=
  if prepareOk then
    if stepOk then
      ({ db with words := db.words.map fun r =>
          if r.id = wordId then
            { r with kana := updatedWord.kana,
                     translation := updatedWord.translation,
                     romaji := updatedWord.romaji,
                     example_sentence := updatedWord.exampleSentence }
          else r },
       [LogEvent.updatedWord wordId])
    else
      (db, [LogEvent.sqlErrorUpdatingWord err, LogEvent.updatedWord wordId])
  else
    (db, [])

/-- Embeds `LessonsDatabase::deleteLesson`: executes only
`DELETE FROM lessons WHERE id = ?`. The schema declares plain foreign keys
with no ON DELETE action and the code never enables foreign-key enforcement,
so child `words` and `tags` rows are untouched. -/
def deleteLesson (db : DB) (lessonId : Int)
    (prepareOk stepOk : Bool) (err : String) : DB × List LogEvent :=
  if prepareOk then
    if stepOk then
      ({ db with lessons := db.lessons.filter fun r => r.id ≠ lessonId },
       [LogEvent.deletedLesson lessonId])
    else
      (db, [LogEvent.sqlErrorDeletingLesson err, LogEvent.deletedLesson lessonId])
  else
    (db, [])

/-- Embeds `LessonsDatabase::deleteWord`: executes only
`DELETE FROM words WHERE id = ?`. -/
def deleteWord (db : DB) (wordId : Int)
    (prepareOk stepOk : Bool) (err : String) : DB × List LogEvent :=
  if prepareOk then
    if stepOk then
      ({ db with words := db.words.filter fun r => r.id ≠ wordId },
       [LogEvent.deletedWord wordId])
    else
      (db, [LogEvent.sqlErrorDeletingWord err, LogEvent.deletedWord wordId])
  else
    (db, [])

/-- Embeds `LessonsDatabase::getLessonNames`: `SELECT main_name, sub_name FROM lessons`,
building one string `main_name ++ " - " ++ sub_name` per row in iteration
order; on prepare failure the vector stays empty. -/
def getLessonNames (db : DB) (prepareOk : Bool) : List String :=
  if prepareOk then
    db.lessons.map fun r => r.main_name ++ " - " ++ r.sub_name
  else
    []

/-- Embeds `LessonsDatabase::getWordsInLesson`: selects word rows with the given
`lesson_id`, and for each one selects its tags by `word_id`, assembling
domain `Word` values in row order. -/
def getWordsInLesson (db : DB) (lessonId : Int) : List Word :=
  (db.words.filter fun w => w.lesson_id = lessonId).map fun w =>
    { id := w.id, kana := w.kana, translation := w.translation,
      romaji := w.romaji, exampleSentence := w.example_sentence,
      tags := (db.tags.filter fun t => t.word_id = w.id).map fun t => t.tag }

/-- Embeds `LessonsDatabase::getAllLessons`: selects every lesson row and assembles a
domain `Lesson` with `getWordsInLesson` per row, in iteration order. -/
def getAllLessons (db : DB) : List Lesson :=
  db.lessons.map fun r =>
    { id := r.id, mainName := r.main_name, subName := r.sub_name,
      words := getWordsInLesson db r.id }

end LessonsDatabase

/-- One backend call as observed by the manager, with its arguments; the trace
of these is what the gmock expectations in `LessonManagerTest.cpp` assert on. -/
inductive BackendCall where
  | addLesson (mainName subName : String)
  | addWord (lessonId : Int) (word : Word)
  | addTag (wordId : Int) (tag : String)
  | updateLesson (lessonId : Int) (newMainName newSubName : String)
  | getAllLessons
deriving DecidableEq

/-- The storage backend contract the manager is written against (`Database` in
the source, mocked by `MockDatabase` in the tests): a state type with one
transition function per operation, id-returning for the two inserts. -/
structure Backend (σ : Type) where
  addLesson : σ → String → String → Int × σ
  addWord : σ → Int → Word → Int × σ
  addTag : σ → Int → String → σ
  updateLesson : σ → Int → String → String → σ
  getAllLessons : σ → List Lesson

namespace LessonManager

/-- Modelled from the spec: the `LessonManager` implementation is not in the
source tree (only `LessonManagerTest.cpp` is). Helper for the tag loop of
`addLesson`: for each tag of a word, in order, calls `addTag(wordId, tag)`.
Returns the backend state and the calls issued. -/
def addTagsOf (B : Backend σ) (s : σ) (wordId : Int) :
    List String → σ × List BackendCall
  | [] => (s, [])
  | t :: rest =>
    let s1 := B.addTag s wordId t
    let r := addTagsOf B s1 wordId rest
    (r.1, BackendCall.addTag wordId t :: r.2)

/-- Modelled from the spec: the word loop of `addLesson`: for each word in
order, calls `addWord(lessonId, word)`, then each of its tags in order with
the word id the backend returned. -/
def addWordsOf (B : Backend σ) (s : σ) (lessonId : Int) :
    List Word → σ × List BackendCall
  | [] => (s, [])
  | w :: rest =>
    let rw := B.addWord s lessonId w
    let rt := addTagsOf B rw.2 rw.1 w.tags
    let rr := addWordsOf B rt.1 lessonId rest
    (rr.1, BackendCall.addWord lessonId w :: (rt.2 ++ rr.2))

/-- Modelled from the spec: `LessonManager::addLesson(lesson)` calls
`addLesson(mainName, subName)`, then writes each word and its tags in order,
and returns the lesson id the backend produced. The trace lists every backend
call issued, in order. -/
def addLesson (B : Backend σ) (s : σ) (l : Lesson) :
    Int × σ × List BackendCall :=
  let rl := B.addLesson s l.mainName l.subName
  let rw := addWordsOf B rl.2 rl.1 l.words
  (rl.1, rw.1, BackendCall.addLesson l.mainName l.subName :: rw.2)

/-- Modelled from the spec: `LessonManager::addLessons(lessons)` applies
`addLesson` to each lesson of the input sequence in order. -/
def addLessons (B : Backend σ) (s : σ) :
    List Lesson → σ × List BackendCall
  | [] => (s, [])
  | l :: rest =>
    let r1 := addLesson B s l
    let r2 := addLessons B r1.2.1 rest
    (r2.1, r1.2.2 ++ r2.2)

/-- Modelled from the spec: `LessonManager::renameLessons(lessons)` calls
`updateLesson(id, mainName, subName)` for each input lesson, in order, and
touches no words. -/
def renameLessons (B : Backend σ) (s : σ) :
    List Lesson → σ × List BackendCall
  | [] => (s, [])
  | l :: rest =>
    let s1 := B.updateLesson s l.id l.mainName l.subName
    let r := renameLessons B s1 rest
    (r.1, BackendCall.updateLesson l.id l.mainName l.subName :: r.2)

/-- Modelled from the spec: `LessonManager::getAllLessons()` is a pass-through
read of the backend result. -/
def getAllLessons (B : Backend σ) (s : σ) : List Lesson × List BackendCall :=
  (B.getAllLessons s, [BackendCall.getAllLessons])

end LessonManager

/-- The word types a quiz question or answer can be phrased in (`QuizType.h`). -/
inductive WordType where
  | BaseWord
  | Kana
  | Romaji
deriving DecidableEq

/-- A quiz flashcard (`Flashcard.h`): a word, its lesson, and attempt counters.
The field name `goodAttemps` keeps the spelling of the source. -/
structure Flashcard where
  word : Word
  lessonId : Int := 0
  badAttempts : Int := 0
  goodAttemps : Int := 0
  learned : Bool := false
deriving DecidableEq

/-- Resolution of a word type to the corresponding field of a `Word`, as in
`Flashcard::getCorrectWord`: BaseWord selects the translation, Kana the kana,
Romaji the romaji. -/
def getCorrectWord (wordType : WordType) (w : Word) : String :=
  match wordType with
  | WordType.BaseWord => w.translation
  | WordType.Kana => w.kana
  | WordType.Romaji => w.romaji

namespace QuizGame

/-- Modelled from the spec: the quiz session engine (`QuizGame`, driven by
`QuizWidget.cpp`) is not in the source tree. Engine state: the fixed lesson
snapshot, the question and answer word types, an injected deterministic
randomness source `posFor` (the slot the correct answer takes among the
distractors for each question index), the deck, and the cursor. -/
structure State where
  lessons : List Lesson
  questionType : WordType
  answerType : WordType
  posFor : Nat → Nat
  deck : List Flashcard
  current : Nat

/-- Modelled from the spec: deck construction on `start` — every word across
the supplied lessons becomes one flashcard with zero attempts, not learned. -/
def buildDeck (lessons : List Lesson) : List Flashcard :=
  lessons.flatMap fun l => l.words.map fun w =>
    { word := w, lessonId := l.id, badAttempts := 0, goodAttemps := 0,
      learned := false }

/-- Modelled from the spec: `start()` (re)builds the deck from the lessons and
resets progress to the first question. -/
def start (g : State) : State :=
  { g with deck := buildDeck g.lessons, current := 0 }

/-- Modelled from the spec: `isFinished()` — the cursor has consumed the deck. -/
def isFinished (g : State) : Bool :=
  g.deck.length ≤ g.current

/-- The flashcard under the cursor, when the session is in progress. -/
def currentFlashcard (g : State) : Option Flashcard :=
  g.deck.get? g.current

/-- Modelled from the spec: the distractor pool for the current question —
the answer-type field of every other flashcard, distinct, never equal to the
correct answer, at most three (falling back to the available distinct pool). -/
def distractorPool (g : State) : List String :=
  match currentFlashcard g with
  | none => []
  | some fc =>
    let correct := getCorrectWord g.answerType fc.word
    ((((g.deck.enum.filter fun p => p.1 ≠ g.current).map
        fun p => getCorrectWord g.answerType p.2.word).filter
        fun a => a ≠ correct).dedup).take 3

/-- Modelled from the spec: `getCorrectAnswerIndex()` — the slot the injected
randomness chose for this question, clamped into the options sequence. -/
def getCorrectAnswerIndex (g : State) : Nat :=
  min (g.posFor g.current) (distractorPool g).length

/-- Modelled from the spec: `getCurrentOptions()` — the distractors with the
correct answer inserted at the reported index. Pure: repeated queries do not
mutate the state. -/
def getCurrentOptions (g : State) : List String :=
  match currentFlashcard g with
  | none => []
  | some fc =>
    let correct := getCorrectWord g.answerType fc.word
    let pool := distractorPool g
    let k := min (g.posFor g.current) pool.length
    pool.take k ++ correct :: pool.drop k

/-- Modelled from the spec: `getCurrentQuestion()` — the question-type field of
the current flashcard. -/
def getCurrentQuestion (g : State) : String :=
  match currentFlashcard g with
  | none => ""
  | some fc => getCorrectWord g.questionType fc.word

/-- Modelled from the spec: `advance(selected)` records the outcome on the
current flashcard and moves the cursor one step; past the last card the
engine is `Finished`. -/
def advance (g : State) (selected : String) : State :=
  match currentFlashcard g with
  | none => g
  | some fc =>
    let correct := getCorrectWord g.answerType fc.word
    let fc2 :=
      if selected = correct then
        { fc with goodAttemps := fc.goodAttemps + 1, learned := true }
      else
        { fc with badAttempts := fc.badAttempts + 1 }
    { g with deck := g.deck.set g.current fc2, current := g.current + 1 }

end QuizGame

/-- The spec words for the tag loop: one `addTag(wordId, tag)` per tag of the
word, in input order. -/
def tagWrites (wordId : Int) (tags : List String) : List BackendCall :=
  tags.map fun t => BackendCall.addTag wordId t

/-- The backend state after the tag loop of one word. -/
def tagStateAfter (B : Backend σ) (s : σ) (wordId : Int) (tags : List String) : σ :=
  tags.foldl (fun st t => B.addTag st wordId t) s

/-- The spec words for the word loop: for each word in input order, one
`addWord(lessonId, word)` followed by that word`s tag writes, keyed by the
word id the backend returned for it. -/
def wordWrites (B : Backend σ) (s : σ) (lessonId : Int) :
    List Word → List BackendCall
  | [] => []
  | w :: rest =>
    BackendCall.addWord lessonId w ::
      (tagWrites (B.addWord s lessonId w).1 w.tags ++
        wordWrites B
          (tagStateAfter B (B.addWord s lessonId w).2 (B.addWord s lessonId w).1
            w.tags)
          lessonId rest)

/-- The traces of the individual `addLesson` runs of a batch, each taken from
the backend state its predecessors left behind. -/
def lessonTraces (B : Backend σ) (s : σ) : List Lesson → List (List BackendCall)
  | [] => []
  | l :: rest =>
    (LessonManager.addLesson B s l).2.2 ::
      lessonTraces B (LessonManager.addLesson B s l).2.1 rest

/-- The backend state after running `addLesson` on each lesson in sequence. -/
def lessonStateAfter (B : Backend σ) (s : σ) : List Lesson → σ
  | [] => s
  | l :: rest => lessonStateAfter B (LessonManager.addLesson B s l).2.1 rest

/-- Concrete store: one lesson (id 1) owning one word (id 2) carrying one tag
(id 3); the AUTOINCREMENT counters are past those ids. -/
def sampleDB : DB :=
  { lessons := [{ id := 1, main_name := "Main Name", sub_name := "Sub Name" }],
    words := [{ id := 2, lesson_id := 1, kana := "as",
                translation := "translation1", romaji := "romaji1",
                example_sentence := "example1" }],
    tags := [{ id := 3, word_id := 2, tag := "tag1" }],
    nextLessonId := 2, nextWordId := 3, nextTagId := 4 }

/-- The first word of `LessonManagerTest.AddLesson`. -/
def word1 : Word :=
  { kana := "as", translation := "translation1", romaji := "romaji1",
    exampleSentence := "example1", tags := ["tag1"] }

/-- The second word of `LessonManagerTest.AddLesson`. -/
def word2 : Word :=
  { kana := "qwe", translation := "translation2", romaji := "romaji2",
    exampleSentence := "example2", tags := ["tag2"] }

/-- The lesson of `LessonManagerTest.AddLesson`. -/
def testLesson : Lesson :=
  { mainName := "Main Name", subName := "Sub Name", words := [word1, word2] }

/-- A mock backend handing out consecutive ids, as the gmock expectations of
`LessonManagerTest` do (lesson id 1, then word ids 2 and 3). -/
def counterBackend : Backend Int :=
  { addLesson := fun s _ _ => (s, s + 1),
    addWord := fun s _ _ => (s, s + 1),
    addTag := fun s _ _ => s,
    updateLesson := fun s _ _ _ => s,
    getAllLessons := fun _ => [] }

/-- A started quiz session over one lesson holding `word1` and `word2`, with
the injected randomness always choosing slot 0. -/
def demoGame : QuizGame.State :=
  QuizGame.start
    { lessons := [{ id := 1, mainName := "Main Name", subName := "Sub Name",
                    words := [word1, word2] }],
      questionType := WordType.BaseWord,
      answerType := WordType.Romaji,
      posFor := fun _ => 0,
      deck := [],
      current := 0 }

/-- The flashcard `demoGame` starts on. -/
def demoFc : Flashcard :=
  { word := word1, lessonId := 1, badAttempts := 0, goodAttemps := 0,
    learned := false }

end Tadaima

open Tadaima

/-- Helper: the tag loop of the manager produces exactly the spec`s tag write
sequence and the folded backend state. -/
theorem addTagsOf_eq (B : Backend σ) (wordId : Int) (tags : List String) :
    ∀ s, LessonManager.addTagsOf B s wordId tags =
      (tagStateAfter B s wordId tags, tagWrites wordId tags) := by
  induction tags with
  | nil => intro s; rfl
  | cons t rest ih =>
    intro s
    simp [LessonManager.addTagsOf, tagStateAfter, tagWrites, ih]

/-- Helper: the word loop of the manager issues exactly the spec`s per-word
write sequence. -/
theorem addWordsOf_trace (B : Backend σ) (lessonId : Int) (ws : List Word) :
    ∀ s, (LessonManager.addWordsOf B s lessonId ws).2 =
      wordWrites B s lessonId ws := by
  induction ws with
  | nil => intro s; rfl
  | cons w rest ih =>
    intro s
    simp [LessonManager.addWordsOf, wordWrites, addTagsOf_eq, ih]

/-- C1: `LessonManager.addLesson` calls the backend`s `addLesson` with the
main and sub name, then writes each word in sequence order followed by its
tags keyed by the word id the backend returned, issues no other backend call,
and returns the lesson id the backend produced. -/
theorem C1_addLesson_issues_exact_backend_calls (B : Backend σ) (s : σ)
    (l : Lesson) :
    (LessonManager.addLesson B s l).1 = (B.addLesson s l.mainName l.subName).1 ∧
    (LessonManager.addLesson B s l).2.2 =
      BackendCall.addLesson l.mainName l.subName ::
        wordWrites B (B.addLesson s l.mainName l.subName).2
          (B.addLesson s l.mainName l.subName).1 l.words := by
  refine ⟨rfl, ?_⟩
  simp [LessonManager.addLesson, addWordsOf_trace]

/-- The concrete scenario of `LessonManagerTest.AddLesson`: the backend hands
out lesson id 1 and word ids 2 and 3; the manager returns 1 and issues exactly
the five expected calls in order. -/
theorem lessonManagerTest_addLesson_scenario :
    LessonManager.addLesson counterBackend 1 testLesson =
      (1, 4,
       [BackendCall.addLesson "Main Name" "Sub Name",
        BackendCall.addWord 1 word1, BackendCall.addTag 2 "tag1",
        BackendCall.addWord 1 word2, BackendCall.addTag 3 "tag2"]) := by
  rfl

/-- C3: `LessonManager.getAllLessons` returns exactly the backend`s result and
issues exactly one `getAllLessons` backend call. -/
theorem C3_getAllLessons_passthrough (B : Backend σ) (s : σ) :
    (LessonManager.getAllLessons B s).1 = B.getAllLessons s ∧
    (LessonManager.getAllLessons B s).2 = [BackendCall.getAllLessons] :=
  ⟨rfl, rfl⟩

/-- C4: `LessonManager.addLessons` produces exactly the concatenation of the
individual `addLesson` traces, each run from the state its predecessors left,
so the sub-writes of different lessons never interleave. -/
theorem C4_addLessons_no_interleaving (B : Backend σ) (s : σ)
    (ls : List Lesson) :
    (LessonManager.addLessons B s ls).2 = (lessonTraces B s ls).flatten ∧
    (LessonManager.addLessons B s ls).1 = lessonStateAfter B s ls := by
  induction ls generalizing s with
  | nil => exact ⟨rfl, rfl⟩
  | cons l rest ih =>
    simp [LessonManager.addLessons, lessonTraces, lessonStateAfter, ih]

/-- C9: `LessonManager.renameLessons` issues exactly one `updateLesson` per
input lesson, with that lesson`s id and names, in order — whatever the word
contents — and no other backend call. -/
theorem C9_renameLessons_one_update_each (B : Backend σ) (s : σ)
    (ls : List Lesson) :
    (LessonManager.renameLessons B s ls).2 =
      ls.map (fun l => BackendCall.updateLesson l.id l.mainName l.subName) ∧
    (LessonManager.renameLessons B s ls).1 =
      List.foldl (fun st l => B.updateLesson st l.id l.mainName l.subName) s ls := by
  induction ls generalizing s with
  | nil => exact ⟨rfl, rfl⟩
  | cons l rest ih =>
    simp [LessonManager.renameLessons, ih]

/-- C2 (code behavior at the failing input): in a store where lesson 1 owns
word 2 which carries tag 3, `deleteLesson 1` removes the lesson row but the
word row with `lesson_id = 1` and its tag row both survive — the delete does
not cascade. -/
theorem C2_deleteLesson_leaves_orphan_rows :
    (LessonsDatabase.deleteLesson sampleDB 1 true true "").1.lessons = [] ∧
    (LessonsDatabase.deleteLesson sampleDB 1 true true "").1.words =
      [⟨2, 1, "as", "translation1", "romaji1", "example1"⟩] ∧
    (LessonsDatabase.deleteLesson sampleDB 1 true true "").1.tags =
      [⟨3, 2, "tag1"⟩] := by
  decide

/-- C5 counterexample: when statement preparation fails, `addLesson` returns
the -1 sentinel but emits no log entry at all, refuting the part of the claim
that says a preparation failure is logged. -/
theorem C5_counterexample_silent_prepare_failure :
    (LessonsDatabase.addLesson sampleDB "A" "B" false true "err").1 = -1 ∧
    (LessonsDatabase.addLesson sampleDB "A" "B" false true "err").2.2 = [] := by
  decide

/-- C5 (amended): on a wellformed store, a successful insert returns the fresh
positive next id, unused by any existing lesson row; a step (write) failure
logs one PROBLEM entry and returns -1; a preparation failure returns -1
without logging; no path throws. -/
theorem C5_addLesson_failure_contract (db : DB) (m s e : String)
    (hdb : db.wellformed) :
    ((LessonsDatabase.addLesson db m s true true e).1 = db.nextLessonId ∧
      0 < (LessonsDatabase.addLesson db m s true true e).1 ∧
      ∀ r ∈ db.lessons, r.id ≠ (LessonsDatabase.addLesson db m s true true e).1) ∧
    ((LessonsDatabase.addLesson db m s true false e).1 = -1 ∧
      (LessonsDatabase.addLesson db m s true false e).2.2 =
        [LogEvent.sqlErrorAddingLesson e] ∧
      (LogEvent.sqlErrorAddingLesson e).level = LogLevel.PROBLEM) ∧
    (∀ stepOk, (LessonsDatabase.addLesson db m s false stepOk e).1 = -1 ∧
      (LessonsDatabase.addLesson db m s false stepOk e).2.2 = []) := by
  obtain ⟨h1, -, -, hl, -, -⟩ := hdb
  refine ⟨⟨rfl, by simpa [LessonsDatabase.addLesson] using h1, ?_⟩,
          ⟨rfl, rfl, rfl⟩, fun stepOk => ⟨rfl, rfl⟩⟩
  intro r hr
  have hlt := hl r hr
  simp only [LessonsDatabase.addLesson, if_true]
  omega

/-- C5 witness: the contract applied to the concrete sample store. -/
theorem C5_addLesson_failure_contract_witness :
    sampleDB.wellformed ∧
    0 < (LessonsDatabase.addLesson sampleDB "A" "B" true true "err").1 :=
  ⟨by decide,
   (C5_addLesson_failure_contract sampleDB "A" "B" "err" (by decide)).1.2.1⟩

/-- C7: `getLessonNames` returns one string per lesson row, each the main name
followed by the separator " - " followed by the sub name, in storage iteration
order. -/
theorem C7_getLessonNames_format (db : DB) (i : Nat)
    (h : i < db.lessons.length) :
    (LessonsDatabase.getLessonNames db true).length = db.lessons.length ∧
    (LessonsDatabase.getLessonNames db true)[i]? =
      some (db.lessons[i].main_name ++ " - " ++ db.lessons[i].sub_name) := by
  refine ⟨by simp [LessonsDatabase.getLessonNames], ?_⟩
  simp [LessonsDatabase.getLessonNames, List.getElem?_eq_getElem, h]

/-- C7 witness: the formatting theorem applied to the sample store at row 0. -/
theorem C7_getLessonNames_format_witness :
    0 < sampleDB.lessons.length ∧
    (LessonsDatabase.getLessonNames sampleDB true)[0]? =
      some (sampleDB.lessons[0].main_name ++ " - " ++ sampleDB.lessons[0].sub_name) :=
  ⟨by decide, (C7_getLessonNames_format sampleDB 0 (by decide)).2⟩

/-- C8: `updateWord` leaves the lessons and tags tables untouched and keeps the
words table pointwise: rows with a different id are unchanged, and the row
with the given id keeps its id and lesson_id while its kana, translation,
romaji and example-sentence fields are replaced. -/
theorem C8_updateWord_frame (db : DB) (wordId : Int) (w : Word) (e : String)
    (i : Nat) (r : WordRow) (hr : db.words[i]? = some r) :
    (LessonsDatabase.updateWord db wordId w true true e).1.lessons = db.lessons ∧
    (LessonsDatabase.updateWord db wordId w true true e).1.tags = db.tags ∧
    (LessonsDatabase.updateWord db wordId w true true e).1.words.length =
      db.words.length ∧
    ∃ r2, (LessonsDatabase.updateWord db wordId w true true e).1.words[i]? = some r2 ∧
      r2.id = r.id ∧ r2.lesson_id = r.lesson_id ∧
      (r.id ≠ wordId → r2 = r) ∧
      (r.id = wordId → r2.kana = w.kana ∧ r2.translation = w.translation ∧
        r2.romaji = w.romaji ∧ r2.example_sentence = w.exampleSentence) := by
  refine ⟨rfl, rfl, by simp [LessonsDatabase.updateWord], ?_⟩
  by_cases hcase : r.id = wordId
  · refine ⟨⟨r.id, r.lesson_id, w.kana, w.translation, w.romaji, w.exampleSentence⟩,
      ?_, rfl, rfl, fun hne => absurd hcase hne, fun _ => ⟨rfl, rfl, rfl, rfl⟩⟩
    simp [LessonsDatabase.updateWord, List.getElem?_map, hr, hcase]
  · refine ⟨r, ?_, rfl, rfl, fun _ => rfl, fun heq => absurd heq hcase⟩
    simp [LessonsDatabase.updateWord, List.getElem?_map, hr, hcase]

/-- C8 witness: the frame theorem applied to the sample store, updating word 2
with the fields of `word2`; the tags table is untouched. -/
theorem C8_updateWord_frame_witness :
    sampleDB.words[0]? =
      some ⟨2, 1, "as", "translation1", "romaji1", "example1"⟩ ∧
    (LessonsDatabase.updateWord sampleDB 2 word2 true true "").1.tags =
      sampleDB.tags :=
  ⟨by decide,
   (C8_updateWord_frame sampleDB 2 word2 "" 0
      ⟨2, 1, "as", "translation1", "romaji1", "example1"⟩
      (by decide)).2.1⟩

/-- C10: when preparation succeeds, `addTag` emits the INFO `Added tag` event
whatever the step outcome; on a step failure the trace is exactly the PROBLEM
entry followed by that INFO entry, the store is unchanged, and the operation
returns no status. -/
theorem C10_addTag_info_logged_unconditionally (db : DB) (wordId : Int)
    (tag e : String) :
    (∀ stepOk,
      LogEvent.addedTag tag wordId ∈
        (LessonsDatabase.addTag db wordId tag true stepOk e).2) ∧
    (LogEvent.addedTag tag wordId).level = LogLevel.INFO ∧
    (LessonsDatabase.addTag db wordId tag true false e).2 =
      [LogEvent.sqlErrorAddingTag e, LogEvent.addedTag tag wordId] ∧
    (LogEvent.sqlErrorAddingTag e).level = LogLevel.PROBLEM ∧
    (LessonsDatabase.addTag db wordId tag true false e).1 = db := by
  refine ⟨fun stepOk => ?_, rfl, rfl, rfl, rfl⟩
  cases stepOk <;> simp [LessonsDatabase.addTag]

/-- Helper: inserting an element at slot k of a list (k within bounds) places
it at index k of the result. -/
theorem getElem_insert_at_slot (pool : List String) (c : String) (k : Nat)
    (hk : k ≤ pool.length) :
    (pool.take k ++ c :: pool.drop k)[k]? = some c := by
  have hlen : (pool.take k).length = k := by
    simp [List.length_take, Nat.min_eq_left hk]
  rw [List.getElem?_append_right (by omega)]
  simp [hlen]

/-- C6: in any in-progress engine state, the options sequence contains, at the
index `getCorrectAnswerIndex` reports, exactly the answer-word-type field of
the current flashcard resolved by `getCorrectWord`; both are pure functions of
the state, so the index cannot change before `advance` does. -/
theorem C6_options_contain_correct_at_index (g : QuizGame.State)
    (fc : Flashcard) (h : QuizGame.currentFlashcard g = some fc) :
    (QuizGame.getCurrentOptions g)[QuizGame.getCorrectAnswerIndex g]? =
      some (getCorrectWord g.answerType fc.word) := by
  have hopt : QuizGame.getCurrentOptions g =
      (QuizGame.distractorPool g).take
          (min (g.posFor g.current) (QuizGame.distractorPool g).length) ++
        getCorrectWord g.answerType fc.word ::
          (QuizGame.distractorPool g).drop
            (min (g.posFor g.current) (QuizGame.distractorPool g).length) := by
    unfold QuizGame.getCurrentOptions
    rw [h]
  rw [hopt]
  exact getElem_insert_at_slot _ _ _ (Nat.min_le_right _ _)

/-- C6 witness: the invariant at the concrete started demo session. -/
theorem C6_options_contain_correct_at_index_witness :
    QuizGame.currentFlashcard demoGame = some demoFc ∧
    (QuizGame.getCurrentOptions demoGame)[QuizGame.getCorrectAnswerIndex demoGame]? =
      some (getCorrectWord demoGame.answerType demoFc.word) :=
  ⟨by decide, C6_options_contain_correct_at_index demoGame demoFc (by decide)⟩
